import Mathlib

/-!
Verification of the AutoBilling exploration-and-extraction engine.

This file shallowly embeds the decision logic of the repository's core
modules — `utils/utils.py`, `utils/extraction_strategies.py`,
`agents/navigation_agent.py`, `agents/billing_evaluator.py` — and proves
or refutes the frozen claims about them.

Modelling conventions:
* Python `datetime` values carry no time-of-day component relevant to the
  code (all comparisons and `strftime` keys use year/month/day), so dates
  are year/month/day triples of naturals compared lexicographically.
* Monetary amounts are rationals (the Python code uses floats, but every
  comparison and constant involved in the claims is exact in ℚ).
* Python dicts used as insertion-ordered maps are modelled as association
  lists where value replacement keeps the key's original position, exactly
  as CPython dicts do.
* `dict` records such as transactions `{'date', 'amount', 'type',
  'description'}` become structures; the f-string dictionary keys
  `f"{year}-{month:02d}"` and `strftime('%m-%d')` are modelled by the
  corresponding pairs of naturals, which encode the same information.
* Regex scanning over page text is abstracted by taking the list of match
  results (the captured amount/type/nearby-date data) as input; everything
  the code does *after* a `match.group(...)` is translated faithfully.
* Exceptions / fallible oracle calls are modelled by `Option`/sum types.
-/

namespace AutoBilling

/-- A calendar date as used by the extraction code (`datetime` with the
time-of-day component irrelevant). -/
structure Date where
  year : Nat
  month : Nat
  day : Nat
deriving DecidableEq, Repr

/-- Lexicographic order on dates, matching Python `datetime` comparison. -/
def Date.le (a b : Date) : Prop :=
  a.year < b.year ∨
    (a.year = b.year ∧ (a.month < b.month ∨ (a.month = b.month ∧ a.day ≤ b.day)))

instance (a b : Date) : Decidable (Date.le a b) := by
  unfold Date.le; infer_instance

theorem Date.le_refl (a : Date) : Date.le a a := by
  simp [Date.le]

theorem Date.le_total (a b : Date) : Date.le a b ∨ Date.le b a := by
  unfold Date.le; omega

theorem Date.le_trans {a b c : Date} (h1 : Date.le a b) (h2 : Date.le b c) :
    Date.le a c := by
  unfold Date.le at *; omega

/-- One extracted transaction record: the dict
`{'date': ..., 'amount': ..., 'type': ..., 'description': ...}` built by the
extraction strategies.  Records produced without an explicit `'type'` or
`'description'` carry the defaults `"bill"` / `""` that the consuming code
(`item.get('type', 'bill')`, `item.get('description', '')`) would supply. -/
structure Txn where
  date : Date
  amount : Rat
  ttype : String
  description : String
deriving DecidableEq, Repr

/-- `BillInfo` from `utils/utils.py` (the "BillingHistory" of the spec). -/
structure BillInfo where
  previous_month : String
  previous_amount : Rat
  current_month : String
  current_amount : Rat
  account_number : Option String := none
  due_date : Option String := none
  all_bills : Option (List Txn) := none
deriving DecidableEq, Repr

/-- Number of records carried by a `BillInfo` (`len(all_bills or [])`). -/
def BillInfo.recordCount (b : BillInfo) : Nat :=
  (b.all_bills.getD []).length

/-- The `empty_indicators` list from `has_meaningful_billing_data`
(`utils/utils.py`). -/
def empty_indicators : List String :=
  ["No data found", "Error", "Screenshot failed", "Vision AI found no data",
   "No driver", "API extraction needs driver", "No APIs found",
   "No API endpoints detected", "HTML extraction failed",
   "Vision extraction failed", "No billing data found", "Exploration complete"]

/-- `has_meaningful_billing_data` (`utils/utils.py` lines 237-262).
`bill_info.all_bills` is truthy exactly when it is a non-empty list; in
that case the function returns `len(all_bills) > 0 = True`.  Otherwise it
rejects sentinel `current_month` values and then accepts iff either
headline amount is positive. -/
def has_meaningful_billing_data (b : BillInfo) : Bool :=
  match b.all_bills with
  | some (_ :: _) => true
  | _ =>
    if b.current_month ∈ empty_indicators then false
    else if 0 < b.current_amount ∨ 0 < b.previous_amount then true
    else false

/-- Modelled from the spec's words (for comparison with the code's
predicate): "meaningful if it has at least one record, OR its headline
current/previous amounts are both positive". -/
def meaningful_spec (b : BillInfo) : Bool :=
  1 ≤ b.recordCount || (0 < b.current_amount && 0 < b.previous_amount)

/-- A `BillInfo` with one positive headline amount, no records, and a
non-sentinel `current_month` — produced, e.g., by the dashboard fallback
path (`_extract_dashboard_amounts`, "Current Bill"). -/
def oneAmountBill : BillInfo :=
  { previous_month := "No previous data", previous_amount := 0,
    current_month := "Current Bill", current_amount := 100,
    account_number := some "Unknown" }

/-- C1 (counterexample): the claim's "meaningful iff at least one record or
BOTH headline amounts positive" is false on the code: a record-free result
with only the current amount positive is meaningful to the code but not to
the claim's predicate. -/
theorem claim1_counterexample :
    has_meaningful_billing_data oneAmountBill = true ∧
      meaningful_spec oneAmountBill = false := by
  constructor <;> decide

/-- C1 (amended): `has_meaningful_billing_data` holds iff the result has at
least one record, or its `current_month` is not a sentinel indicator and at
least ONE of the headline amounts (current or previous) is strictly
positive. -/
theorem claim1_meaningful_characterization (b : BillInfo) :
    has_meaningful_billing_data b = true ↔
      (1 ≤ b.recordCount ∨
        (b.current_month ∉ empty_indicators ∧
          (0 < b.current_amount ∨ 0 < b.previous_amount))) := by
  unfold has_meaningful_billing_data BillInfo.recordCount
  match h : b.all_bills with
  | some (_ :: _) => simp [h]
  | some [] =>
    simp only [h, Option.getD_some, List.length_nil]
    split
    · simp_all
    · split <;> simp_all
  | none =>
    simp only [h, Option.getD_none, List.length_nil]
    split
    · simp_all
    · split <;> simp_all

/-- The descending-by-date relation used by every
`transactions.sort(key=lambda x: x['date'], reverse=True)` call. -/
def txnGE (a b : Txn) : Prop := Date.le b.date a.date

instance : DecidableRel txnGE := fun a b =>
  inferInstanceAs (Decidable (Date.le b.date a.date))

instance : IsTotal Txn txnGE :=
  ⟨fun a b => (Date.le_total b.date a.date).elim Or.inl Or.inr⟩

instance : IsTrans Txn txnGE :=
  ⟨fun _ _ _ h1 h2 => Date.le_trans h2 h1⟩

/-- Python's stable `list.sort(key=..., reverse=True)`: insertion sort by
the descending relation; ties keep their original relative order, as in
CPython. -/
def sortTxnsDesc (ts : List Txn) : List Txn := ts.insertionSort txnGE

/-- The `(year, month)` grouping key; the source builds the string
`f"{date_obj.year}-{date_obj.month:02d}"`, which encodes the same pair. -/
def monthKey (t : Txn) : Nat × Nat := (t.date.year, t.date.month)

/-- The `monthly_latest` dict loop of `_create_bill_info`
(`utils/extraction_strategies.py` lines 466-473): walk the (already
descending-sorted) list, keeping only the first record seen for each
`(year, month)` key. -/
def dedupMonths : List Txn → List (Nat × Nat) → List Txn
  | [], _ => []
  | t :: ts, seen =>
    if monthKey t ∈ seen then dedupMonths ts seen
    else t :: dedupMonths ts (monthKey t :: seen)

/-- Zero-padded two-digit rendering, as `%m`/`%d` in `strftime`. -/
def pad2 (n : Nat) : String :=
  if n < 10 then "0" ++ toString n else toString n

/-- `date.strftime('%m/%d/%Y')`. -/
def Date.fmtMDY (d : Date) : String :=
  pad2 d.month ++ "/" ++ pad2 d.day ++ "/" ++ toString d.year

/-- `HTMLExtractionStrategy._create_bill_info`
(`utils/extraction_strategies.py` lines 457-503).  `urlAccount` stands for
`extract_account_number_from_url(driver.current_url)` when a driver is
present (`none` both when there is no driver and when no account pattern
matches, exactly as the Python expression evaluates to `None`). -/
def create_bill_info (transactions : List Txn) (urlAccount : Option String) :
    BillInfo :=
  if transactions = [] then
    { previous_month := "No transactions", previous_amount := 0,
      current_month := "No valid transactions", current_amount := 0 }
  else
    let sorted := sortTxnsDesc transactions
    let filtered_bills := sortTxnsDesc (dedupMonths sorted [])
    let bills0 := filtered_bills.filter (fun t => t.ttype = "bill")
    let bills := if bills0 = [] then filtered_bills else bills0
    let current_bill := bills.head?
    let previous_bill := bills[1]?
    { previous_month :=
        match previous_bill with
        | some p => "Previous (" ++ p.date.fmtMDY ++ ")"
        | none => "No previous",
      previous_amount := (previous_bill.map Txn.amount).getD 0,
      current_month :=
        match current_bill with
        | some c => "Current (" ++ c.date.fmtMDY ++ ")"
        | none => "No current",
      current_amount := (current_bill.map Txn.amount).getD 0,
      account_number := some (urlAccount.getD "Historical Data"),
      all_bills := some filtered_bills }

theorem mem_of_mem_dedupMonths {t : Txn} :
    ∀ {ts : List Txn} {seen : List (Nat × Nat)},
      t ∈ dedupMonths ts seen → t ∈ ts
  | [], _, h => by simp [dedupMonths] at h
  | v :: ts, seen, h => by
    by_cases hk : monthKey v ∈ seen
    · simp only [dedupMonths, if_pos hk] at h
      exact List.mem_cons_of_mem _ (mem_of_mem_dedupMonths h)
    · simp only [dedupMonths, if_neg hk, List.mem_cons] at h
      rcases h with h | h
      · exact h ▸ List.mem_cons_self _ _
      · exact List.mem_cons_of_mem _ (mem_of_mem_dedupMonths h)

theorem key_not_seen_of_mem_dedupMonths {t : Txn} :
    ∀ {ts : List Txn} {seen : List (Nat × Nat)},
      t ∈ dedupMonths ts seen → monthKey t ∉ seen
  | [], _, h => by simp [dedupMonths] at h
  | v :: ts, seen, h => by
    by_cases hk : monthKey v ∈ seen
    · simp only [dedupMonths, if_pos hk] at h
      exact key_not_seen_of_mem_dedupMonths h
    · simp only [dedupMonths, if_neg hk, List.mem_cons] at h
      rcases h with h | h
      · exact h ▸ hk
      · intro hmem
        exact key_not_seen_of_mem_dedupMonths h (List.mem_cons_of_mem _ hmem)

theorem dedupMonths_pairwise_keys :
    ∀ (ts : List Txn) (seen : List (Nat × Nat)),
      (dedupMonths ts seen).Pairwise (fun a b => monthKey a ≠ monthKey b)
  | [], _ => by simp [dedupMonths]
  | v :: ts, seen => by
    by_cases hk : monthKey v ∈ seen
    · simpa only [dedupMonths, if_pos hk] using dedupMonths_pairwise_keys ts seen
    · simp only [dedupMonths, if_neg hk, List.pairwise_cons]
      refine ⟨fun u hu heq => ?_, dedupMonths_pairwise_keys ts _⟩
      exact key_not_seen_of_mem_dedupMonths hu (heq ▸ List.mem_cons_self _ _)

theorem dedupMonths_sublist :
    ∀ (ts : List Txn) (seen : List (Nat × Nat)),
      (dedupMonths ts seen).Sublist ts
  | [], _ => by simp [dedupMonths]
  | v :: ts, seen => by
    by_cases hk : monthKey v ∈ seen
    · simpa only [dedupMonths, if_pos hk] using
        (dedupMonths_sublist ts seen).cons v
    · simpa only [dedupMonths, if_neg hk] using
        (dedupMonths_sublist ts (monthKey v :: seen)).cons₂ v

/-- On a descending-sorted input, the record `dedupMonths` keeps for a
month has the latest date among all input records of that month. -/
theorem dedupMonths_keeps_latest {t : Txn} :
    ∀ {ts : List Txn} {seen : List (Nat × Nat)},
      List.Sorted txnGE ts → t ∈ dedupMonths ts seen →
      ∀ u ∈ ts, monthKey u = monthKey t → Date.le u.date t.date
  | [], _, _, h => by simp [dedupMonths] at h
  | v :: ts, seen, hs, h => by
    have hs' : List.Sorted txnGE ts := hs.of_cons
    have hdom : ∀ u ∈ ts, txnGE v u := List.rel_of_sorted_cons hs
    by_cases hk : monthKey v ∈ seen
    · simp only [dedupMonths, if_pos hk] at h
      intro u hu hkey
      rcases List.mem_cons.1 hu with rfl | hu
      · exact absurd (hkey ▸ hk) (key_not_seen_of_mem_dedupMonths h)
      · exact dedupMonths_keeps_latest hs' h u hu hkey
    · simp only [dedupMonths, if_neg hk, List.mem_cons] at h
      rcases h with rfl | h
      · intro u hu _
        rcases List.mem_cons.1 hu with rfl | hu
        · exact Date.le_refl _
        · exact hdom u hu
      · intro u hu hkey
        rcases List.mem_cons.1 hu with rfl | hu
        · exact absurd (hkey ▸ List.mem_cons_self _ _)
            (key_not_seen_of_mem_dedupMonths h)
        · exact dedupMonths_keeps_latest hs' h u hu hkey

/-- Every month occurring in the input is represented in the output
(unless it was already in `seen`). -/
theorem dedupMonths_represents {u : Txn} :
    ∀ {ts : List Txn} {seen : List (Nat × Nat)}, u ∈ ts →
      monthKey u ∈ seen ∨ ∃ t ∈ dedupMonths ts seen, monthKey t = monthKey u
  | [], _, h => by simp at h
  | v :: ts, seen, h => by
    by_cases hk : monthKey v ∈ seen
    · rcases List.mem_cons.1 h with rfl | h
      · exact Or.inl hk
      · simpa only [dedupMonths, if_pos hk] using dedupMonths_represents h
    · simp only [dedupMonths, if_neg hk]
      rcases List.mem_cons.1 h with heq | h
      · exact Or.inr ⟨v, List.mem_cons_self _ _, by rw [heq]⟩
      · rcases @dedupMonths_represents u ts (monthKey v :: seen) h with
          hmem | ⟨t, ht, hkey⟩
        · rcases List.mem_cons.1 hmem with heq | hmem
          · exact Or.inr ⟨v, List.mem_cons_self _ _, heq.symm⟩
          · exact Or.inl hmem
        · exact Or.inr ⟨t, List.mem_cons_of_mem _ ht, hkey⟩

theorem sortTxnsDesc_sorted (ts : List Txn) :
    List.Sorted txnGE (sortTxnsDesc ts) :=
  List.sorted_insertionSort txnGE ts

theorem mem_sortTxnsDesc {t : Txn} {ts : List Txn} :
    t ∈ sortTxnsDesc ts ↔ t ∈ ts :=
  List.mem_insertionSort txnGE

/-- The second `filtered_bills.sort(...)` in `_create_bill_info` is a no-op:
its input is a sublist of an already descending-sorted list. -/
theorem create_bill_info_all_bills (ts : List Txn) (acct : Option String)
    (h : ts ≠ []) :
    (create_bill_info ts acct).all_bills =
      some (dedupMonths (sortTxnsDesc ts) []) := by
  have hsub := dedupMonths_sublist (sortTxnsDesc ts) []
  have hsorted : List.Sorted txnGE (dedupMonths (sortTxnsDesc ts) []) :=
    (sortTxnsDesc_sorted ts).sublist hsub
  simp only [create_bill_info, if_neg h]
  exact congrArg some (hsorted.insertionSort_eq)

/-- C2: building a `BillInfo` from a non-empty raw record list applies the
monthly collapse: the stored `all_bills` is sorted newest first, holds at
most one record per `(year, month)`, each kept record comes from the input
and carries the latest date of its month group, every input month is
represented — and on the three-record scenario
(2024-07-01, 120), (2024-06-01, 110), (2024-06-15, 115) the output is
exactly (2024-07-01, 120), (2024-06-15, 115). -/
theorem claim2_monthly_collapse (ts : List Txn) (h : ts ≠ []) :
    (∃ fb, (create_bill_info ts none).all_bills = some fb ∧
      List.Sorted txnGE fb ∧
      fb.Pairwise (fun a b => monthKey a ≠ monthKey b) ∧
      (∀ t ∈ fb, t ∈ ts ∧
        ∀ u ∈ ts, monthKey u = monthKey t → Date.le u.date t.date) ∧
      (∀ u ∈ ts, ∃ t ∈ fb, monthKey t = monthKey u)) ∧
    (create_bill_info
        [⟨⟨2024, 7, 1⟩, 120, "bill", ""⟩, ⟨⟨2024, 6, 1⟩, 110, "bill", ""⟩,
         ⟨⟨2024, 6, 15⟩, 115, "bill", ""⟩] none).all_bills =
      some [⟨⟨2024, 7, 1⟩, 120, "bill", ""⟩, ⟨⟨2024, 6, 15⟩, 115, "bill", ""⟩] := by
  constructor
  · refine ⟨dedupMonths (sortTxnsDesc ts) [], create_bill_info_all_bills ts none h,
      (sortTxnsDesc_sorted ts).sublist (dedupMonths_sublist _ _),
      dedupMonths_pairwise_keys _ _, fun t ht => ?_, fun u hu => ?_⟩
    · refine ⟨mem_sortTxnsDesc.1 (mem_of_mem_dedupMonths ht), fun u hu hkey => ?_⟩
      exact dedupMonths_keeps_latest (sortTxnsDesc_sorted ts) ht u
        (mem_sortTxnsDesc.2 hu) hkey
    · rcases dedupMonths_represents (mem_sortTxnsDesc.2 hu) with hmem | hrep
      · exact absurd hmem (List.not_mem_nil _)
      · exact hrep
  · decide

/-- C2 witness: the general part of `claim2_monthly_collapse` applied to
the concrete three-record scenario. -/
theorem claim2_monthly_collapse_witness :
    ∃ fb, (create_bill_info
      [⟨⟨2024, 7, 1⟩, 120, "bill", ""⟩, ⟨⟨2024, 6, 1⟩, 110, "bill", ""⟩,
       ⟨⟨2024, 6, 15⟩, 115, "bill", ""⟩] none).all_bills = some fb ∧
      List.Sorted txnGE fb ∧
      fb.Pairwise (fun a b => monthKey a ≠ monthKey b) ∧
      (∀ t ∈ fb, t ∈ [⟨⟨2024, 7, 1⟩, 120, "bill", ""⟩,
          ⟨⟨2024, 6, 1⟩, 110, "bill", ""⟩, ⟨⟨2024, 6, 15⟩, 115, "bill", ""⟩] ∧
        ∀ u ∈ [⟨⟨2024, 7, 1⟩, 120, "bill", ""⟩, ⟨⟨2024, 6, 1⟩, 110, "bill", ""⟩,
          (⟨⟨2024, 6, 15⟩, 115, "bill", ""⟩ : Txn)],
            monthKey u = monthKey t → Date.le u.date t.date) ∧
      (∀ u ∈ [⟨⟨2024, 7, 1⟩, 120, "bill", ""⟩, ⟨⟨2024, 6, 1⟩, 110, "bill", ""⟩,
          (⟨⟨2024, 6, 15⟩, 115, "bill", ""⟩ : Txn)],
        ∃ t ∈ fb, monthKey t = monthKey u) :=
  (claim2_monthly_collapse
    [⟨⟨2024, 7, 1⟩, 120, "bill", ""⟩, ⟨⟨2024, 6, 1⟩, 110, "bill", ""⟩,
     ⟨⟨2024, 6, 15⟩, 115, "bill", ""⟩] (by decide)).1

/-- The dedup key of `deduplicate_transactions` (`utils/utils.py` lines
270-271): `(date.strftime('%m-%d'), amount, item.get('type', 'bill'))`.
The `%m-%d` string encodes exactly the `(month, day)` pair. -/
def dedupKey (t : Txn) : (Nat × Nat) × Rat × String :=
  ((t.date.month, t.date.day), t.amount, t.ttype)

/-- `abs(year - datetime.now().year)` for a record. -/
def yearDist (now : Nat) (t : Txn) : Nat :=
  ((t.date.year : Int) - (now : Int)).natAbs

/-- The replacement test of `deduplicate_transactions` (lines 281-286):
strictly closer year, or same distance with strictly longer description. -/
def betterCandidate (now : Nat) (item existing : Txn) : Bool :=
  decide (yearDist now item < yearDist now existing) ||
    (decide (yearDist now item = yearDist now existing) &&
      decide (existing.description.length < item.description.length))

/-- Replacing the value stored at a key in a CPython dict keeps the key's
original insertion position. -/
def updateAssoc {K V : Type} [DecidableEq K] (k : K) (v : V) :
    List (K × V) → List (K × V)
  | [] => []
  | (k', v') :: rest =>
    if k' = k then (k, v) :: rest else (k', v') :: updateAssoc k v rest

/-- The key type of the `unique_data` dict. -/
abbrev DKey : Type := (Nat × Nat) × Rat × String

/-- One iteration of the `for item in transactions` loop of
`deduplicate_transactions`: insert under a fresh key, or replace the stored
record when the new one wins `betterCandidate`. -/
def dedup_step (now : Nat) (acc : List (DKey × Txn)) (item : Txn) :
    List (DKey × Txn) :=
  match acc.find? (fun p => decide (p.1 = dedupKey item)) with
  | none => acc ++ [(dedupKey item, item)]
  | some p =>
    if betterCandidate now item p.2 then updateAssoc (dedupKey item) item acc
    else acc

/-- `deduplicate_transactions` (`utils/utils.py` lines 264-288):
`list(unique_data.values())` of the insertion-ordered dict built by the
loop. -/
def deduplicate_transactions (now : Nat) (ts : List Txn) : List Txn :=
  (ts.foldl (dedup_step now) []).map Prod.snd

theorem updateAssoc_keys {K V : Type} [DecidableEq K] (k : K) (v : V) :
    ∀ l : List (K × V), (updateAssoc k v l).map Prod.fst = l.map Prod.fst
  | [] => rfl
  | (k', v') :: rest => by
    by_cases h : k' = k
    · simp [updateAssoc, if_pos h, h]
    · simp [updateAssoc, if_neg h, updateAssoc_keys k v rest]

theorem mem_updateAssoc {K V : Type} [DecidableEq K] {k : K} {v : V}
    {p : K × V} : ∀ {l : List (K × V)},
      p ∈ updateAssoc k v l → p = (k, v) ∨ p ∈ l
  | [], h => by simp [updateAssoc] at h
  | (k', v') :: rest, h => by
    by_cases hk : k' = k
    · simp only [updateAssoc, if_pos hk, List.mem_cons] at h
      rcases h with h | h
      · exact Or.inl h
      · exact Or.inr (List.mem_cons_of_mem _ h)
    · simp only [updateAssoc, if_neg hk, List.mem_cons] at h
      rcases h with h | h
      · exact Or.inr (h ▸ List.mem_cons_self _ _)
      · rcases mem_updateAssoc h with h | h
        · exact Or.inl h
        · exact Or.inr (List.mem_cons_of_mem _ h)

theorem mem_updateAssoc_of_ne {K V : Type} [DecidableEq K] {k : K} {v : V}
    {p : K × V} (hne : p.1 ≠ k) : ∀ {l : List (K × V)},
      p ∈ l → p ∈ updateAssoc k v l
  | [], h => by simp at h
  | (k', v') :: rest, h => by
    by_cases hk : k' = k
    · simp only [updateAssoc, if_pos hk]
      rcases List.mem_cons.1 h with heq | h
      · exact absurd (by rw [heq] at hne ⊢; exact hk) hne
      · exact List.mem_cons_of_mem _ h
    · simp only [updateAssoc, if_neg hk]
      rcases List.mem_cons.1 h with heq | h
      · exact heq ▸ List.mem_cons_self _ _
      · exact List.mem_cons_of_mem _ (mem_updateAssoc_of_ne hne h)

theorem updated_mem_updateAssoc {K V : Type} [DecidableEq K] {k : K} {v : V}
    {w : V} : ∀ {l : List (K × V)}, (k, w) ∈ l → (k, v) ∈ updateAssoc k v l
  | [], h => by simp at h
  | (k', v') :: rest, h => by
    by_cases hk : k' = k
    · simp [updateAssoc, if_pos hk]
    · simp only [updateAssoc, if_neg hk]
      rcases List.mem_cons.1 h with heq | h
      · exact absurd (congrArg Prod.fst heq).symm hk
      · exact List.mem_cons_of_mem _ (updated_mem_updateAssoc h)

/-- In a list with pairwise-distinct keys, entries sharing a key coincide. -/
theorem eq_of_keys_pairwise {K V : Type} {p q : K × V} :
    ∀ {l : List (K × V)}, (l.map Prod.fst).Pairwise (· ≠ ·) →
      p ∈ l → q ∈ l → p.1 = q.1 → p = q
  | [], _, hp, _, _ => by simp at hp
  | e :: rest, hpw, hp, hq, hkey => by
    simp only [List.map_cons, List.pairwise_cons] at hpw
    have hne : ∀ r ∈ rest, e.1 ≠ r.1 := fun r hr =>
      hpw.1 r.1 (List.mem_map_of_mem Prod.fst hr)
    rcases List.mem_cons.1 hp with hpe | hp <;>
      rcases List.mem_cons.1 hq with hqe | hq
    · rw [hpe, hqe]
    · exact absurd (by rw [← hpe]; exact hkey) (hne q hq)
    · exact absurd (by rw [← hqe]; exact hkey.symm) (hne p hp)
    · exact eq_of_keys_pairwise hpw.2 hp hq hkey

theorem mem_updateAssoc_strong {K V : Type} [DecidableEq K] {k : K} {v : V}
    {p : K × V} : ∀ {l : List (K × V)},
      (l.map Prod.fst).Pairwise (· ≠ ·) → p ∈ updateAssoc k v l →
      p = (k, v) ∨ (p ∈ l ∧ p.1 ≠ k)
  | [], _, h => by simp [updateAssoc] at h
  | (k', v') :: rest, hpw, h => by
    simp only [List.map_cons, List.pairwise_cons] at hpw
    by_cases hk : k' = k
    · simp only [updateAssoc, if_pos hk, List.mem_cons] at h
      rcases h with h | h
      · exact Or.inl h
      · refine Or.inr ⟨List.mem_cons_of_mem _ h, fun hpk => ?_⟩
        exact hpw.1 p.1 (List.mem_map_of_mem Prod.fst h) (by rw [hk, hpk])
    · simp only [updateAssoc, if_neg hk, List.mem_cons] at h
      rcases h with h | h
      · exact Or.inr ⟨h ▸ List.mem_cons_self _ _, by rw [h]; exact hk⟩
      · rcases mem_updateAssoc_strong hpw.2 h with h | ⟨hmem, hne⟩
        · exact Or.inl h
        · exact Or.inr ⟨List.mem_cons_of_mem _ hmem, hne⟩

/-- Invariant of the `unique_data` dict after the records in `pool` have
been processed: every stored record carries its own key, comes from the
pool, and is optimal (closest year, then longest description) among the
pool records sharing its key; keys are pairwise distinct; every pool
record's key is present. -/
def AccGood (now : Nat) (pool : List Txn) (acc : List (DKey × Txn)) : Prop :=
  (∀ p ∈ acc, p.1 = dedupKey p.2 ∧ p.2 ∈ pool ∧
     ∀ u ∈ pool, dedupKey u = p.1 →
       yearDist now p.2 ≤ yearDist now u ∧
       (yearDist now p.2 = yearDist now u →
         u.description.length ≤ p.2.description.length)) ∧
  (acc.map Prod.fst).Pairwise (· ≠ ·) ∧
  (∀ u ∈ pool, ∃ p ∈ acc, p.1 = dedupKey u)

theorem dedup_step_good {now : Nat} {pool : List Txn}
    {acc : List (DKey × Txn)} (h : AccGood now pool acc) (item : Txn) :
    AccGood now (pool ++ [item]) (dedup_step now acc item) := by
  obtain ⟨h1, h2, h3⟩ := h
  cases hfind : acc.find? (fun p => decide (p.1 = dedupKey item)) with
  | none =>
    simp only [dedup_step, hfind]
    have hnone : ∀ p ∈ acc, p.1 ≠ dedupKey item := by
      intro p hp
      simpa using List.find?_eq_none.1 hfind p hp
    have hpool : ∀ u ∈ pool, dedupKey u ≠ dedupKey item := by
      intro u hu heq
      obtain ⟨p, hp, hkey⟩ := h3 u hu
      exact hnone p hp (hkey.trans heq)
    refine ⟨?_, ?_, ?_⟩
    · intro p hp
      rcases List.mem_append.1 hp with hp | hp
      · obtain ⟨hk, hmem, hopt⟩ := h1 p hp
        refine ⟨hk, List.mem_append_left _ hmem, ?_⟩
        intro u hu hkey
        rcases List.mem_append.1 hu with hu | hu
        · exact hopt u hu hkey
        · have hui : u = item := by simpa using hu
          rw [hui] at hkey
          exact absurd hkey.symm (hnone p hp)
      · have hp' : p = (dedupKey item, item) := by simpa using hp
        subst hp'
        refine ⟨rfl, List.mem_append_right _ (by simp), ?_⟩
        intro u hu hkey
        rcases List.mem_append.1 hu with hu | hu
        · exact absurd hkey (hpool u hu)
        · have hui : u = item := by simpa using hu
          rw [hui]
          exact ⟨le_refl _, fun _ => le_refl _⟩
    · rw [List.map_append]
      refine List.pairwise_append.2 ⟨h2, by simp, ?_⟩
      intro a ha b hb
      have hb' : b = dedupKey item := by simpa using hb
      obtain ⟨p, hp, hpa⟩ := List.mem_map.1 ha
      rw [hb', ← hpa]
      exact hnone p hp
    · intro u hu
      rcases List.mem_append.1 hu with hu | hu
      · obtain ⟨p, hp, hkey⟩ := h3 u hu
        exact ⟨p, List.mem_append_left _ hp, hkey⟩
      · have hui : u = item := by simpa using hu
        rw [hui]
        exact ⟨(dedupKey item, item), List.mem_append_right _ (by simp), rfl⟩
  | some q =>
    simp only [dedup_step, hfind]
    have hqmem : q ∈ acc := List.mem_of_find?_eq_some hfind
    have hqkey : q.1 = dedupKey item := by
      simpa using List.find?_some hfind
    obtain ⟨hqk, hqpool, hqopt⟩ := h1 q hqmem
    by_cases hb : betterCandidate now item q.2 = true
    · rw [if_pos hb]
      have hcases : yearDist now item < yearDist now q.2 ∨
          (yearDist now item = yearDist now q.2 ∧
            q.2.description.length < item.description.length) := by
        unfold betterCandidate at hb
        simpa using hb
      refine ⟨?_, ?_, ?_⟩
      · intro p hp
        rcases mem_updateAssoc_strong h2 hp with hpe | ⟨hp, hpk⟩
        · subst hpe
          dsimp only
          refine ⟨rfl, List.mem_append_right _ (by simp), ?_⟩
          intro u hu hkey
          rcases List.mem_append.1 hu with hu | hu
          · have hq_u := hqopt u hu (hkey.trans hqkey.symm)
            rcases hcases with hlt | ⟨heq, hlen⟩
            · exact ⟨le_trans (le_of_lt hlt) hq_u.1, fun heq2 => by omega⟩
            · refine ⟨heq ▸ hq_u.1, fun heq2 => ?_⟩
              have hqu : yearDist now q.2 = yearDist now u := by omega
              exact le_trans (hq_u.2 hqu) (le_of_lt hlen)
          · have hui : u = item := by simpa using hu
            rw [hui]
            exact ⟨le_refl _, fun _ => le_refl _⟩
        · obtain ⟨hk, hmem, hopt⟩ := h1 p hp
          refine ⟨hk, List.mem_append_left _ hmem, ?_⟩
          intro u hu hkey
          rcases List.mem_append.1 hu with hu | hu
          · exact hopt u hu hkey
          · have hui : u = item := by simpa using hu
            rw [hui] at hkey
            exact absurd hkey.symm hpk
      · rw [updateAssoc_keys]
        exact h2
      · intro u hu
        have hq' : (dedupKey item, q.2) ∈ acc := by
          have hq2 : q = (dedupKey item, q.2) := by rw [← hqkey]
          exact hq2 ▸ hqmem
        have hnew : (dedupKey item, item) ∈ updateAssoc (dedupKey item) item acc :=
          updated_mem_updateAssoc hq'
        rcases List.mem_append.1 hu with hu | hu
        · obtain ⟨p, hp, hkey⟩ := h3 u hu
          by_cases hpk : p.1 = dedupKey item
          · exact ⟨(dedupKey item, item), hnew, by rw [← hpk, hkey]⟩
          · exact ⟨p, mem_updateAssoc_of_ne hpk hp, hkey⟩
        · have hui : u = item := by simpa using hu
          rw [hui]
          exact ⟨(dedupKey item, item), hnew, rfl⟩
    · rw [if_neg hb]
      have hnb : yearDist now q.2 ≤ yearDist now item ∧
          (yearDist now q.2 = yearDist now item →
            item.description.length ≤ q.2.description.length) := by
        unfold betterCandidate at hb
        simp only [Bool.or_eq_true, Bool.and_eq_true, decide_eq_true_eq,
          not_or, not_and] at hb
        omega
      refine ⟨?_, h2, ?_⟩
      · intro p hp
        obtain ⟨hk, hmem, hopt⟩ := h1 p hp
        refine ⟨hk, List.mem_append_left _ hmem, ?_⟩
        intro u hu hkey
        rcases List.mem_append.1 hu with hu | hu
        · exact hopt u hu hkey
        · have hui : u = item := by simpa using hu
          rw [hui] at hkey ⊢
          have hpq : p = q :=
            eq_of_keys_pairwise h2 hp hqmem (hkey.symm.trans hqkey.symm)
          rw [hpq]
          exact hnb
      · intro u hu
        rcases List.mem_append.1 hu with hu | hu
        · exact h3 u hu
        · have hui : u = item := by simpa using hu
          rw [hui]
          exact ⟨q, hqmem, hqkey⟩

theorem dedup_foldl_good {now : Nat} :
    ∀ (ts pool : List Txn) (acc : List (DKey × Txn)),
      AccGood now pool acc →
      AccGood now (pool ++ ts) (ts.foldl (dedup_step now) acc)
  | [], pool, acc, h => by simpa using h
  | t :: ts, pool, acc, h => by
    have hrec :=
      dedup_foldl_good ts (pool ++ [t]) (dedup_step now acc t)
        (dedup_step_good h t)
    simpa [List.append_assoc] using hrec

theorem deduplicate_transactions_good (now : Nat) (ts : List Txn) :
    AccGood now ts (ts.foldl (dedup_step now) []) := by
  have h0 : AccGood now [] ([] : List (DKey × Txn)) :=
    ⟨fun p hp => absurd hp (List.not_mem_nil p), List.Pairwise.nil,
     fun u hu => absurd hu (List.not_mem_nil u)⟩
  simpa using dedup_foldl_good ts [] [] h0

/-- C5: `deduplicate_transactions` groups records by
`(month-day, amount, kind)` ignoring year; each surviving record comes from
the input, is optimal in its collision group (year closest to "now",
tie-broken by longest description), each group key appears exactly once,
every input key is represented — and the two concrete collision scenarios
from the spec resolve as claimed. -/
theorem claim5_dedup_year_preference (now : Nat) (ts : List Txn) :
    ((∀ t ∈ deduplicate_transactions now ts, t ∈ ts ∧
        ∀ u ∈ ts, dedupKey u = dedupKey t →
          yearDist now t ≤ yearDist now u ∧
            (yearDist now t = yearDist now u →
              u.description.length ≤ t.description.length)) ∧
      (deduplicate_transactions now ts).Pairwise
        (fun a b => dedupKey a ≠ dedupKey b) ∧
      (∀ u ∈ ts, ∃ t ∈ deduplicate_transactions now ts,
        dedupKey t = dedupKey u)) ∧
    deduplicate_transactions 2024
        [⟨⟨2023, 7, 15⟩, 50, "bill", ""⟩, ⟨⟨2099, 7, 15⟩, 50, "bill", ""⟩] =
      [⟨⟨2023, 7, 15⟩, 50, "bill", ""⟩] ∧
    deduplicate_transactions 2024
        [⟨⟨2099, 7, 15⟩, 50, "bill", ""⟩, ⟨⟨2023, 7, 15⟩, 50, "bill", ""⟩] =
      [⟨⟨2023, 7, 15⟩, 50, "bill", ""⟩] ∧
    deduplicate_transactions 2024
        [⟨⟨2022, 3, 10⟩, (Rat.mk' 177 2), "bill", ""⟩,
         ⟨⟨2024, 3, 10⟩, (Rat.mk' 177 2), "bill", ""⟩] =
      [⟨⟨2024, 3, 10⟩, (Rat.mk' 177 2), "bill", ""⟩] := by
  obtain ⟨g1, g2, g3⟩ := deduplicate_transactions_good now ts
  refine ⟨⟨?_, ?_, ?_⟩, by decide, by decide, by decide⟩
  · intro t ht
    obtain ⟨p, hp, hpt⟩ := List.mem_map.1 ht
    obtain ⟨hk, hmem, hopt⟩ := g1 p hp
    subst hpt
    refine ⟨hmem, fun u hu hkey => hopt u hu (hkey.trans hk.symm)⟩
  · have hkeys : (ts.foldl (dedup_step now) []).Pairwise
        (fun p q => p.1 ≠ q.1) := List.pairwise_map.1 g2
    refine List.pairwise_map.2 (hkeys.imp_of_mem ?_)
    intro p q hp hq hne heq
    exact hne (((g1 p hp).1.trans heq).trans (g1 q hq).1.symm)
  · intro u hu
    obtain ⟨p, hp, hkey⟩ := g3 u hu
    exact ⟨p.2, List.mem_map_of_mem Prod.snd hp, (g1 p hp).1.symm.trans hkey⟩

/-- C5 witness: the year-preference clause of
`claim5_dedup_year_preference` evaluated on the 2022/2024 collision
scenario — the kept 2024 record's year distance does not exceed the
discarded 2022 record's. -/
theorem claim5_dedup_year_preference_witness :
    yearDist 2024 ⟨⟨2024, 3, 10⟩, Rat.mk' 177 2, "bill", ""⟩ ≤
      yearDist 2024 ⟨⟨2022, 3, 10⟩, Rat.mk' 177 2, "bill", ""⟩ :=
  (((claim5_dedup_year_preference 2024
      [⟨⟨2022, 3, 10⟩, Rat.mk' 177 2, "bill", ""⟩,
       ⟨⟨2024, 3, 10⟩, Rat.mk' 177 2, "bill", ""⟩]).1.1
    ⟨⟨2024, 3, 10⟩, Rat.mk' 177 2, "bill", ""⟩ (by decide)).2
    ⟨⟨2022, 3, 10⟩, Rat.mk' 177 2, "bill", ""⟩ (by decide) (by decide)).1

/-- The two-digit-year branch of `parse_date_flexible`
(`utils/utils.py` lines 168-177), applied once `'%m/%d/%y'` has matched
month `m`, day `d` and two-digit year `yy`.  CPython's `strptime` `%y`
directive maps `00-68` to `2000-2068` and `69-99` to `1969-1999`; the code
then adds 100 to any year below 2000. -/
def strptime_two_digit_year (yy : Nat) : Nat :=
  if yy ≤ 68 then 2000 + yy else 1900 + yy

/-- `parse_date_flexible`'s result on the `'%m/%d/%y'` path. -/
def parse_date_flexible_two_digit (m d yy : Nat) : Date :=
  let y := strptime_two_digit_year yy
  if y < 2000 then ⟨y + 100, m, d⟩ else ⟨y, m, d⟩

/-- C10: every date accepted through the two-digit-year path has a year in
[2000, 2099] (in fact exactly `2000 + yy`), so a 1900s year can never
escape; in particular '07/15/99' parses to year 2099. -/
theorem claim10_two_digit_year_window (m d yy : Nat) (h : yy ≤ 99) :
    (2000 ≤ (parse_date_flexible_two_digit m d yy).year ∧
      (parse_date_flexible_two_digit m d yy).year ≤ 2099 ∧
      (parse_date_flexible_two_digit m d yy).year = 2000 + yy) ∧
    (parse_date_flexible_two_digit 7 15 99).year = 2099 := by
  unfold parse_date_flexible_two_digit strptime_two_digit_year
  refine ⟨?_, by decide⟩
  simp only
  split <;> split <;> simp <;> omega

/-- C10 witness: the window theorem applied at the concrete input
'07/15/99'. -/
theorem claim10_two_digit_year_window_witness :
    2000 ≤ (parse_date_flexible_two_digit 7 15 99).year ∧
      (parse_date_flexible_two_digit 7 15 99).year ≤ 2099 ∧
      (parse_date_flexible_two_digit 7 15 99).year = 2000 + 99 :=
  (claim10_two_digit_year_window 7 15 99 (by decide)).1

/-- One entry of the `bills` array in a parsed vision/AI JSON response
(`_create_bill_info_from_vision`, lines 686-698).  `date`/`amount` are
`none` when `strptime`/`float` would raise, in which case the entry is
skipped; `btype`/`description` already carry the `.get` defaults
`'bill'` / `'Vision AI Bill'`. -/
structure VisionBill where
  date : Option Date
  amount : Option Rat
  btype : String
  description : String
deriving DecidableEq, Repr

/-- A parsed vision response: `billing_data.get('bills', [])` plus
`account_info.get('account_number')`. -/
structure VisionData where
  bills : List VisionBill
  account_number : Option String
deriving DecidableEq, Repr

/-- `VisionAIExtractionStrategy._create_bill_info_from_vision`
(`utils/extraction_strategies.py` lines 676-718).  Note: the processed
bills are sorted newest-first and stored as `all_bills` WITHOUT the
latest-per-month filtering that `_create_bill_info` applies. -/
def create_bill_info_from_vision (vd : VisionData) : BillInfo :=
  if vd.bills = [] then
    { previous_month := "No vision data", previous_amount := 0,
      current_month := "Vision AI found no bills", current_amount := 0 }
  else
    let processed := vd.bills.filterMap fun b =>
      match b.date, b.amount with
      | some d, some a => some (⟨d, a, b.btype, b.description⟩ : Txn)
      | _, _ => none
    if processed = [] then
      { previous_month := "No valid vision data", previous_amount := 0,
        current_month := "Could not parse vision data", current_amount := 0 }
    else
      let sorted := sortTxnsDesc processed
      let current_bill := sorted.head?
      let previous_bill := sorted[1]?
      { previous_month :=
          match previous_bill with
          | some p => "Previous (" ++ p.date.fmtMDY ++ ")"
          | none => "No previous",
        previous_amount := (previous_bill.map Txn.amount).getD 0,
        current_month :=
          match current_bill with
          | some c => "Current (" ++ c.date.fmtMDY ++ ")"
          | none => "Current ()",
        current_amount := (current_bill.map Txn.amount).getD 0,
        account_number := some (vd.account_number.getD "Vision AI Data"),
        all_bills := some sorted }

/-- `SmartExtractionOrchestrator.extract_billing_data`
(`utils/extraction_strategies.py` lines 730-760), as a function of the
three strategies' results.  The trailing re-checks of the HTML and API
results (lines 755-758) are dead — both were already found non-meaningful
— so the chain ends in the failure sentinel. -/
def extract_billing_data (apiResult htmlResult visionResult : BillInfo)
    (is_billing_page vision_available : Bool) : BillInfo :=
  if has_meaningful_billing_data apiResult then apiResult
  else if has_meaningful_billing_data htmlResult then htmlResult
  else if is_billing_page && vision_available &&
      has_meaningful_billing_data visionResult then visionResult
  else
    { previous_month := "All extractions failed", previous_amount := 0,
      current_month := "No viable extraction method", current_amount := 0 }

/-- The API strategy's no-endpoints sentinel (line 65). -/
def apiNoEndpoints : BillInfo :=
  { previous_month := "No APIs found", previous_amount := 0,
    current_month := "No API endpoints detected", current_amount := 0 }

/-- The HTML dashboard path's empty sentinel (line 455). -/
def htmlNoData : BillInfo :=
  { previous_month := "No HTML data found", previous_amount := 0,
    current_month := "No extractable amounts", current_amount := 0 }

/-- A vision response with two bills in the same month (June 2024). -/
def visionJuneData : VisionData :=
  { bills := [⟨some ⟨2024, 6, 15⟩, some 115, "bill", "June bill A"⟩,
              ⟨some ⟨2024, 6, 1⟩, some 110, "bill", "June bill B"⟩],
    account_number := none }

/-- C3 (counterexample): with the API and HTML strategies failing and an
in-scope vision result, the orchestrator returns the vision history, which
contains TWO records in the same `(year, month)` — the vision path never
applies the monthly-collapse rule. -/
theorem claim3_counterexample :
    (extract_billing_data apiNoEndpoints htmlNoData
        (create_bill_info_from_vision visionJuneData) true true).all_bills =
      some [⟨⟨2024, 6, 15⟩, 115, "bill", "June bill A"⟩,
            ⟨⟨2024, 6, 1⟩, 110, "bill", "June bill B"⟩] ∧
    monthKey ⟨⟨2024, 6, 15⟩, 115, "bill", "June bill A"⟩ =
      monthKey ⟨⟨2024, 6, 1⟩, 110, "bill", "June bill B"⟩ ∧
    (⟨⟨2024, 6, 15⟩, 115, "bill", "June bill A"⟩ : Txn) ≠
      ⟨⟨2024, 6, 1⟩, 110, "bill", "June bill B"⟩ := by
  refine ⟨by decide, by decide, by decide⟩

theorem create_bill_info_from_vision_sorted (vd : VisionData) :
    ∀ fb, (create_bill_info_from_vision vd).all_bills = some fb →
      List.Sorted txnGE fb := by
  intro fb hfb
  unfold create_bill_info_from_vision at hfb
  split at hfb
  · simp at hfb
  · dsimp only at hfb
    split at hfb
    · simp at hfb
    · simp only [Option.some.injEq] at hfb
      exact hfb ▸ sortTxnsDesc_sorted _

/-- C3 (amended): every orchestrator result is one of the three strategy
results or the failure sentinel; its records are always sorted descending
by date; and when the result comes from the API or HTML strategy (both of
which build through `_create_bill_info`) it also holds at most one record
per `(year, month)`.  The vision strategy's output is NOT monthly-collapsed
(see `claim3_counterexample`). -/
theorem claim3_collapse_by_strategy (apiTs htmlTs : List Txn)
    (acctA acctH : Option String) (vd : VisionData) (p v : Bool)
    (hA : apiTs ≠ []) (hH : htmlTs ≠ []) :
    (extract_billing_data (create_bill_info apiTs acctA)
        (create_bill_info htmlTs acctH)
        (create_bill_info_from_vision vd) p v = create_bill_info apiTs acctA ∨
      extract_billing_data (create_bill_info apiTs acctA)
        (create_bill_info htmlTs acctH)
        (create_bill_info_from_vision vd) p v = create_bill_info htmlTs acctH ∨
      extract_billing_data (create_bill_info apiTs acctA)
        (create_bill_info htmlTs acctH)
        (create_bill_info_from_vision vd) p v =
          create_bill_info_from_vision vd ∨
      (extract_billing_data (create_bill_info apiTs acctA)
        (create_bill_info htmlTs acctH)
        (create_bill_info_from_vision vd) p v).all_bills = none) ∧
    (∀ fb, (extract_billing_data (create_bill_info apiTs acctA)
        (create_bill_info htmlTs acctH)
        (create_bill_info_from_vision vd) p v).all_bills = some fb →
      List.Sorted txnGE fb) ∧
    (∀ ts : List Txn, ts ≠ [] → ∀ acct fb,
      (create_bill_info ts acct).all_bills = some fb →
      fb.Pairwise (fun a b => monthKey a ≠ monthKey b)) := by
  refine ⟨?_, ?_, ?_⟩
  · unfold extract_billing_data
    split
    · exact Or.inl rfl
    · split
      · exact Or.inr (Or.inl rfl)
      · split
        · exact Or.inr (Or.inr (Or.inl rfl))
        · exact Or.inr (Or.inr (Or.inr rfl))
  · intro fb hfb
    unfold extract_billing_data at hfb
    split at hfb
    · rw [create_bill_info_all_bills apiTs acctA hA] at hfb
      obtain rfl : fb = _ := (Option.some.injEq _ _ ▸ hfb).symm
      exact (sortTxnsDesc_sorted apiTs).sublist (dedupMonths_sublist _ _)
    · split at hfb
      · rw [create_bill_info_all_bills htmlTs acctH hH] at hfb
        obtain rfl : fb = _ := (Option.some.injEq _ _ ▸ hfb).symm
        exact (sortTxnsDesc_sorted htmlTs).sublist (dedupMonths_sublist _ _)
      · split at hfb
        · exact create_bill_info_from_vision_sorted vd fb hfb
        · simp at hfb
  · intro ts hts acct fb hfb
    rw [create_bill_info_all_bills ts acct hts] at hfb
    obtain rfl : fb = _ := (Option.some.injEq _ _ ▸ hfb).symm
    exact dedupMonths_pairwise_keys _ _

/-- C3 witness: the amended theorem applied to concrete one-record API and
HTML strategies and the June vision data — the returned history's record
list is sorted descending. -/
theorem claim3_collapse_by_strategy_witness :
    List.Sorted txnGE [⟨⟨2024, 7, 1⟩, 120, "bill", ""⟩] :=
  (claim3_collapse_by_strategy [⟨⟨2024, 7, 1⟩, 120, "bill", ""⟩]
    [⟨⟨2024, 6, 1⟩, 110, "bill", ""⟩] none none visionJuneData true true
    (by decide) (by decide)).2.1
    [⟨⟨2024, 7, 1⟩, 120, "bill", ""⟩] (by decide)

/-- `is_valid_utility_date` (`utils/utils.py` lines 181-184), with
`MAX_YEARS_BACK = 15` and `MAX_YEARS_FORWARD = 2` from `config.py`. -/
def is_valid_utility_date (currentYear : Nat) (d : Date) : Prop :=
  currentYear - 15 ≤ d.year ∧ d.year ≤ currentYear + 2

instance (currentYear : Nat) (d : Date) :
    Decidable (is_valid_utility_date currentYear d) := by
  unfold is_valid_utility_date; infer_instance

/-- `extract_dates_and_amounts` (`utils/utils.py` lines 118-153), as a
function of the regex scan results: `dates` holds the
`parse_date_flexible` result of each string matched by `DATE_PATTERNS`
(`none` when parsing fails) and `rawAmounts` the floats parsed from each
`AMOUNT_PATTERNS` match.  Amounts are filtered by the
`MIN_UTILITY_AMOUNT ≤ amount ≤ MAX_UTILITY_AMOUNT` band (1.0-5000.0) and
each surviving date is paired with each surviving amount. -/
def extract_dates_and_amounts (currentYear : Nat)
    (dates : List (Option Date)) (rawAmounts : List Rat) :
    List (Date × Rat) :=
  let amounts_found := rawAmounts.filter fun a => decide (1 ≤ a ∧ a ≤ 5000)
  dates.flatMap fun pd =>
    match pd with
    | some d =>
      if is_valid_utility_date currentYear d then
        amounts_found.map fun a => (d, a)
      else []
    | none => []

/-- One match of the `dashboard_patterns` regex scan in
`_extract_dashboard_amounts` (lines 306-351): the parsed amount, the
pattern's `amount_type` label and the first date parsed from the ±100
character context window (if any). -/
structure DashCand where
  amount : Rat
  atype : String
  ctxDate : Option Date
deriving DecidableEq, Repr

/-- An entry of the `amounts` list (lines 341-347), before monthly
filtering. -/
structure DashAmount where
  amount : Rat
  date : Date
  atype : String
deriving DecidableEq, Repr

/-- Lines 306-351: keep a match iff `amount > 0 and amount < 10000`; use
the context date when present, else default to `datetime.now()` but only
for the `current_bill` / `amount_due` / `balance` labels. -/
def dashboardCandidates (now : Date) (cands : List DashCand) :
    List DashAmount :=
  cands.filterMap fun c =>
    if 0 < c.amount ∧ c.amount < 10000 then
      match c.ctxDate with
      | some d => some ⟨c.amount, d, c.atype⟩
      | none =>
        if c.atype ∈ ["current_bill", "amount_due", "balance"] then
          some ⟨c.amount, now, c.atype⟩
        else none
    else none

/-- The `priority_order` dict (lines 379-382), default 9. -/
def priority_order (t : String) : Nat :=
  if t = "current_bill" then 1
  else if t = "amount_due" then 2
  else if t = "balance" then 3
  else if t = "bill_amount" then 4
  else if t = "last_payment" then 5
  else if t = "payment_amount" then 6
  else if t = "paid_amount" then 7
  else if t = "dollar_amount" then 8
  else 9

def dashMonthKey (a : DashAmount) : Nat × Nat := (a.date.year, a.date.month)

/-- One iteration of the dashboard `monthly_latest` loop (lines 360-397):
first entry per month wins unless a later one has a higher-priority label,
or the same priority and a strictly larger amount. -/
def dash_step (acc : List ((Nat × Nat) × DashAmount)) (a : DashAmount) :
    List ((Nat × Nat) × DashAmount) :=
  match acc.find? (fun p => decide (p.1 = dashMonthKey a)) with
  | none => acc ++ [(dashMonthKey a, a)]
  | some p =>
    if priority_order a.atype < priority_order p.2.atype ∨
        (priority_order a.atype = priority_order p.2.atype ∧
          p.2.amount < a.amount) then
      updateAssoc (dashMonthKey a) a acc
    else acc

/-- Descending-date relation for the `amounts.sort(key=..., reverse=True)`
call on dashboard entries. -/
def dashGE (a b : DashAmount) : Prop := Date.le b.date a.date

instance : DecidableRel dashGE := fun a b =>
  inferInstanceAs (Decidable (Date.le b.date a.date))

/-- Conversion of a monthly-filtered entry to the stored bill dict
(lines 366-372 / 390-396): `type` becomes `'bill'`, `amount_type` is
popped, and the description is `"Dashboard " + amount_type` (the cosmetic
`.replace('_',' ').title()` is left as the raw label). -/
def dashToTxn (a : DashAmount) : Txn :=
  ⟨a.date, a.amount, "bill", "Dashboard " ++ a.atype⟩

/-- The `filtered_bills` list of `_extract_dashboard_amounts`: candidates
sorted newest first, monthly-filtered with the priority rule, converted to
bill dicts and re-sorted newest first (lines 354-404). -/
def dashboard_filtered (now : Date) (cands : List DashCand) : List Txn :=
  let sortedAmts := (dashboardCandidates now cands).insertionSort dashGE
  let filtered0 := (sortedAmts.foldl dash_step []).map Prod.snd
  (filtered0.map dashToTxn).insertionSort txnGE

/-- `HTMLExtractionStrategy._extract_dashboard_amounts`
(`utils/extraction_strategies.py` lines 273-455).  `simpleAmounts` holds
the floats matched by the fallback `amount_patterns` scan (lines 428-441).
When the labelled scan finds nothing, the fallback takes the maximum
matched amount in `[10, 5000]` and emits a record-free "Current Bill"
result, or the empty sentinel. -/
def extract_dashboard_amounts (now : Date) (cands : List DashCand)
    (simpleAmounts : List Rat) (urlAccount : Option String) : BillInfo :=
  let amounts := dashboardCandidates now cands
  let dashResult : Option BillInfo :=
    if amounts = [] then none
    else
      let filtered := dashboard_filtered now cands
      if filtered = [] then none
      else
        some { previous_month :=
                 match filtered[1]? with
                 | some p => "Previous (" ++ p.date.fmtMDY ++ ")"
                 | none => "No previous",
               previous_amount := ((filtered[1]?).map Txn.amount).getD 0,
               current_month :=
                 match filtered.head? with
                 | some c => "Current (" ++ c.date.fmtMDY ++ ")"
                 | none => "Current ()",
               current_amount := ((filtered.head?).map Txn.amount).getD 0,
               account_number := some (urlAccount.getD "Dashboard Data"),
               all_bills := some filtered }
  match dashResult with
  | some r => r
  | none =>
    let current_amount := simpleAmounts.foldl
      (fun m a => if 10 ≤ a ∧ a ≤ 5000 then max m a else m) 0
    if 0 < current_amount then
      { previous_month := "No previous data", previous_amount := 0,
        current_month := "Current Bill", current_amount := current_amount,
        account_number := some (urlAccount.getD "Unknown") }
    else htmlNoData

theorem mem_dash_step {p : (Nat × Nat) × DashAmount}
    {acc : List ((Nat × Nat) × DashAmount)} {a : DashAmount}
    (h : p ∈ dash_step acc a) : p ∈ acc ∨ p.2 = a := by
  cases hfind : acc.find? (fun q => decide (q.1 = dashMonthKey a)) with
  | none =>
    simp only [dash_step, hfind] at h
    rcases List.mem_append.1 h with h | h
    · exact Or.inl h
    · have hp : p = (dashMonthKey a, a) := by simpa using h
      exact Or.inr (by rw [hp])
  | some q =>
    simp only [dash_step, hfind] at h
    split at h
    · rcases mem_updateAssoc h with hp | hp
      · exact Or.inr (by rw [hp])
      · exact Or.inl hp
    · exact Or.inl h

theorem dash_fold_values :
    ∀ (l : List DashAmount) (acc : List ((Nat × Nat) × DashAmount))
      {p : (Nat × Nat) × DashAmount}, p ∈ l.foldl dash_step acc →
      p.2 ∈ acc.map Prod.snd ∨ p.2 ∈ l
  | [], acc, p, h => Or.inl (List.mem_map_of_mem Prod.snd h)
  | a :: l, acc, p, h => by
    rcases dash_fold_values l (dash_step acc a) h with h' | h'
    · obtain ⟨q, hq, hqp⟩ := List.mem_map.1 h'
      rcases mem_dash_step hq with hq' | hq'
      · exact Or.inl (hqp ▸ List.mem_map_of_mem Prod.snd hq')
      · exact Or.inr (by rw [← hqp, hq']; exact List.mem_cons_self _ _)
    · exact Or.inr (List.mem_cons_of_mem _ h')

theorem dashboardCandidates_band {now : Date} {cands : List DashCand}
    {x : DashAmount} (h : x ∈ dashboardCandidates now cands) :
    0 < x.amount ∧ x.amount < 10000 := by
  obtain ⟨c, hc, hcx⟩ := List.mem_filterMap.1 h
  by_cases hband : 0 < c.amount ∧ c.amount < 10000
  · rw [if_pos hband] at hcx
    split at hcx
    · obtain rfl := Option.some.inj hcx
      exact hband
    · split at hcx
      · obtain rfl := Option.some.inj hcx
        exact hband
      · simp at hcx
  · rw [if_neg hband] at hcx
    simp at hcx

theorem dashboard_filtered_band (now : Date) (cands : List DashCand) :
    ∀ t ∈ dashboard_filtered now cands, 0 < t.amount ∧ t.amount < 10000 := by
  intro t ht
  unfold dashboard_filtered at ht
  rw [List.mem_insertionSort] at ht
  obtain ⟨a, ha, hat⟩ := List.mem_map.1 ht
  obtain ⟨q, hq, hqa⟩ := List.mem_map.1 ha
  rcases dash_fold_values _ [] hq with h | h
  · simp at h
  · rw [List.mem_insertionSort] at h
    have hband := dashboardCandidates_band (hqa ▸ h)
    rw [← hat]
    exact hband

theorem extract_dates_and_amounts_band (cy : Nat)
    (dates : List (Option Date)) (raw : List Rat) :
    ∀ p ∈ extract_dates_and_amounts cy dates raw, 1 ≤ p.2 ∧ p.2 ≤ 5000 := by
  intro p hp
  unfold extract_dates_and_amounts at hp
  obtain ⟨pd, hpd, hmem⟩ := List.mem_flatMap.1 hp
  cases pd with
  | none => simp at hmem
  | some d =>
    dsimp only at hmem
    split at hmem
    · obtain ⟨a, ha, hap⟩ := List.mem_map.1 hmem
      have hband := List.of_mem_filter ha
      rw [← hap]
      simpa using hband
    · simp at hmem

/-- Two dashboard scans that smuggle out-of-band amounts: a bare
`$9999.00` next to a date (the `dollar_amount` pattern), and a
`balance $0.50` with no nearby date. -/
def dashCex : List DashCand :=
  [⟨9999, "dollar_amount", some ⟨2025, 7, 17⟩⟩]

def dashCexHalf : List DashCand :=
  [⟨Rat.mk' 1 2, "balance", none⟩]

/-- C4 (counterexample): the dashboard extraction path checks only
`0 < amount < 10000`, not the `[1, 5000]` sanity band, so records with
amount 9999.00 — and 0.50 — do appear in its output. -/
theorem claim4_counterexample :
    (extract_dashboard_amounts ⟨2025, 8, 1⟩ dashCex [] none).all_bills =
      some [⟨⟨2025, 7, 17⟩, 9999, "bill", "Dashboard dollar_amount"⟩] ∧
    ¬((9999 : Rat) ≤ 5000) ∧
    (extract_dashboard_amounts ⟨2025, 8, 1⟩ dashCexHalf [] none).all_bills =
      some [⟨⟨2025, 8, 1⟩, Rat.mk' 1 2, "bill", "Dashboard balance"⟩] ∧
    ¬((1 : Rat) ≤ Rat.mk' 1 2) := by
  refine ⟨by decide, by decide, by decide, by decide⟩

/-- C4 (amended): the `[1, 5000]` band holds on the
`extract_dates_and_amounts` path, but the dashboard path enforces only the
open band `(0, 10000)` on the records it emits. -/
theorem claim4_amount_bands (cy : Nat) (dates : List (Option Date))
    (raw : List Rat) (now : Date) (cands : List DashCand)
    (simple : List Rat) (acct : Option String) :
    (∀ p ∈ extract_dates_and_amounts cy dates raw,
      1 ≤ p.2 ∧ p.2 ≤ 5000) ∧
    (∀ fb, (extract_dashboard_amounts now cands simple acct).all_bills =
        some fb → ∀ t ∈ fb, 0 < t.amount ∧ t.amount < 10000) := by
  refine ⟨extract_dates_and_amounts_band cy dates raw, ?_⟩
  intro fb hfb t ht
  unfold extract_dashboard_amounts at hfb
  dsimp only at hfb
  by_cases hamt : dashboardCandidates now cands = []
  · rw [if_pos hamt] at hfb
    dsimp only at hfb
    split at hfb
    · simp at hfb
    · simp [htmlNoData] at hfb
  · rw [if_neg hamt] at hfb
    by_cases hfil : dashboard_filtered now cands = []
    · rw [if_pos hfil] at hfb
      dsimp only at hfb
      split at hfb
      · simp at hfb
      · simp [htmlNoData] at hfb
    · rw [if_neg hfil] at hfb
      dsimp only at hfb
      obtain rfl := Option.some.inj hfb
      exact dashboard_filtered_band now cands t ht

/-- C4 witness: the amended band theorem applied at concrete inputs on
both paths. -/
theorem claim4_amount_bands_witness :
    (∀ p ∈ extract_dates_and_amounts 2024 [some ⟨2024, 7, 1⟩] [120],
      1 ≤ p.2 ∧ p.2 ≤ 5000) ∧
    (∀ fb, (extract_dashboard_amounts ⟨2025, 8, 1⟩ dashCex [] none).all_bills =
        some fb → ∀ t ∈ fb, 0 < t.amount ∧ t.amount < 10000) :=
  claim4_amount_bands 2024 [some ⟨2024, 7, 1⟩] [120] ⟨2025, 8, 1⟩ dashCex [] none

/-- The parsed sufficiency-evaluation dict returned by
`BillingDataEvaluator.evaluate_page_sufficiency`; `billing_entries_found`
entries are kept abstract (their content is irrelevant here). -/
structure Evaluation where
  has_sufficient_billing_data : Bool
  months_of_data_found : Nat
  data_quality : String
  billing_entries_found : List String
  evaluation_reason : String
deriving DecidableEq, Repr

/-- Outcome of one oracle (`ollama.chat`) interaction: the call raised
(timeout, connection error, ...), the reply carried no parseable JSON
object (direct parse and the `\x7b.*\x7d` regex retry both fail), or a
parsed value of the expected shape. -/
inductive OracleCall (α : Type) where
  | fail : OracleCall α
  | unparseable : OracleCall α
  | ok : α → OracleCall α
deriving DecidableEq, Repr

/-- `BillingDataEvaluator._get_default_evaluation`
(`agents/billing_evaluator.py` lines 193-201). -/
def default_evaluation : Evaluation :=
  { has_sufficient_billing_data := false, months_of_data_found := 0,
    data_quality := "none", billing_entries_found := [],
    evaluation_reason := "AI evaluation failed" }

/-- `BillingDataEvaluator.evaluate_page_sufficiency`
(`agents/billing_evaluator.py` lines 25-66): a raised oracle call is
caught by the outer `try` and an unparseable reply is defaulted by
`_parse_ai_response`; both paths return `_get_default_evaluation()`. -/
def evaluate_page_sufficiency (o : OracleCall Evaluation) : Evaluation :=
  match o with
  | .fail => default_evaluation
  | .unparseable => default_evaluation
  | .ok e => e

/-- A heuristically discovered billing link as consumed by
`_rank_billing_links`: the dict's `url`, `text` and heuristic `score`. -/
structure RLink where
  url : String
  text : String
  score : Nat
deriving DecidableEq, Repr

/-- An entry of the oracle's `ranked_links` reply. -/
structure ORankedLink where
  url : String
  score : Nat
deriving DecidableEq, Repr

/-- Python's `needle in hay` substring test. -/
def strContains (hay needle : String) : Bool :=
  hay.data.tails.any fun t => needle.data.isPrefixOf t

/-- The keyword score boost of the fallback ranking
(`agents/navigation_agent.py` lines 570-584). -/
def fallback_boost (l : RLink) : RLink :=
  let text := l.text.toLower
  if strContains text "billing history" || strContains text "transaction history" then
    { l with score := 95 }
  else if strContains text "payment history" || strContains text "account history" then
    { l with score := 90 }
  else if strContains text "bills" || strContains text "statements" then
    { l with score := 85 }
  else if strContains text "billing" || strContains text "transactions" then
    { l with score := 80 }
  else if strContains text "account" || strContains text "usage" then
    { l with score := 70 }
  else l

/-- Descending-score order used by
`sorted(billing_links, key=lambda x: x['score'], reverse=True)`. -/
def rankGE (a b : RLink) : Prop := b.score ≤ a.score

instance : DecidableRel rankGE := fun a b =>
  inferInstanceAs (Decidable (b.score ≤ a.score))

instance : IsTotal RLink rankGE := ⟨fun a b => Nat.le_total b.score a.score⟩

instance : IsTrans RLink rankGE := ⟨fun _ _ _ h1 h2 => Nat.le_trans h2 h1⟩

/-- The deterministic fallback ranking (`_rank_billing_links` lines
566-589): boost scores by text keywords, sort descending, keep the top
five. -/
def rank_fallback (links : List RLink) : List RLink :=
  ((links.map fallback_boost).insertionSort rankGE).take 5

/-- `NavigationAgent._rank_billing_links`
(`agents/navigation_agent.py` lines 482-589): oracle ranking filtered at
`EXPLORATION_THRESHOLD = 70`, retried at 50, falling back to the first
five heuristic links; any oracle failure (exception or unparseable reply)
lands in the deterministic keyword fallback.  The caller guarantees a
non-empty `links` list (lines 87-101), which the fallback's logging
(`enhanced_links[0]`) requires. -/
def rank_billing_links (o : OracleCall (List ORankedLink))
    (links : List RLink) : List ORankedLink ⊕ List RLink :=
  match o with
  | .ok ranked =>
    let filtered := ranked.filter fun l => 70 ≤ l.score
    if filtered ≠ [] then .inl filtered
    else
      let filtered2 := ranked.filter fun l => 50 ≤ l.score
      if filtered2 ≠ [] then .inl filtered2
      else .inr (links.take 5)
  | _ => .inr (rank_fallback links)

/-- C9: with an oracle that always fails or returns unparseable output,
the sufficiency evaluation returns exactly the fixed default verdict
(insufficient, 0 months, empty entries) and link ranking returns the
deterministic keyword-based fallback ordering: at most five links, sorted
descending by boosted score, all drawn from the discovered links. -/
theorem claim9_oracle_failure_fallback :
    (∀ o : OracleCall Evaluation, (∀ e, o ≠ .ok e) →
      evaluate_page_sufficiency o = default_evaluation ∧
      (evaluate_page_sufficiency o).has_sufficient_billing_data = false ∧
      (evaluate_page_sufficiency o).months_of_data_found = 0 ∧
      (evaluate_page_sufficiency o).billing_entries_found = []) ∧
    (∀ (o : OracleCall (List ORankedLink)) (links : List RLink),
      (∀ r, o ≠ .ok r) → links ≠ [] →
      rank_billing_links o links = .inr (rank_fallback links) ∧
      (rank_fallback links).length ≤ 5 ∧
      List.Sorted rankGE (rank_fallback links) ∧
      ∀ l ∈ rank_fallback links, l ∈ links.map fallback_boost) := by
  constructor
  · intro o ho
    cases o with
    | fail => exact ⟨rfl, rfl, rfl, rfl⟩
    | unparseable => exact ⟨rfl, rfl, rfl, rfl⟩
    | ok e => exact absurd rfl (ho e)
  · intro o links ho _
    cases o with
    | fail =>
      refine ⟨rfl, List.length_take_le 5 _, ?_, ?_⟩
      · exact (List.sorted_insertionSort rankGE _).sublist
          (List.take_sublist 5 _)
      · intro l hl
        exact (List.mem_insertionSort rankGE).1
          (List.mem_of_mem_take hl)
    | unparseable =>
      refine ⟨rfl, List.length_take_le 5 _, ?_, ?_⟩
      · exact (List.sorted_insertionSort rankGE _).sublist
          (List.take_sublist 5 _)
      · intro l hl
        exact (List.mem_insertionSort rankGE).1
          (List.mem_of_mem_take hl)
    | ok r => exact absurd rfl (ho r)

/-- C9 witness: the fallback theorem applied to a failing oracle and one
concrete discovered link. -/
theorem claim9_oracle_failure_fallback_witness :
    rank_billing_links OracleCall.fail
        [⟨"https://x/billing", "billing history", 40⟩] =
      Sum.inr (rank_fallback [⟨"https://x/billing", "billing history", 40⟩]) ∧
    (rank_fallback [⟨"https://x/billing", "billing history", 40⟩]).length ≤ 5 ∧
    List.Sorted rankGE
      (rank_fallback [⟨"https://x/billing", "billing history", 40⟩]) ∧
    ∀ l ∈ rank_fallback [⟨"https://x/billing", "billing history", 40⟩],
      l ∈ [⟨"https://x/billing", "billing history", 40⟩].map fallback_boost :=
  claim9_oracle_failure_fallback.2 OracleCall.fail
    [⟨"https://x/billing", "billing history", 40⟩]
    (fun r h => by cases h) (by decide)

/-- The environment of one candidate iteration in
`_explore_links_with_scoring` (`agents/navigation_agent.py` lines
599-640): the wall-clock `elapsed = time.time() - start_time` read at the
loop head, whether the URL was already in the visited set, what
`_explore_single_link` returns for it (`none` both when the page yields no
meaningful data and when an exception is swallowed), the page quality
score computed afterwards, and how many extra `driver.get` navigations the
oracle-guided sub-exploration inside `_explore_single_link` performed. -/
structure Visit where
  elapsed : Nat
  alreadyVisited : Bool
  result : Option BillInfo
  pageScore : Nat
  subNavs : Nat
deriving DecidableEq, Repr

/-- `BillInfo("No meaningful data found", 0.0, "Exploration completed",
0.0)` — the loop's empty sentinel (line 648). -/
def noMeaningfulSentinel : BillInfo :=
  { previous_month := "No meaningful data found", previous_amount := 0,
    current_month := "Exploration completed", current_amount := 0 }

/-- The best-result update of the loop (lines 633-636): a meaningful
candidate replaces the running best iff its page score strictly exceeds
the highest score seen; nothing else ever changes the best. -/
def fold_best (best : Option BillInfo) (highest : Nat)
    (result : Option BillInfo) (pageScore : Nat) : Option BillInfo × Nat :=
  match result with
  | some r =>
    if has_meaningful_billing_data r then
      if highest < pageScore then (some r, pageScore) else (best, highest)
    else (best, highest)
  | none => (best, highest)

/-- `NavigationAgent._explore_links_with_scoring`
(`agents/navigation_agent.py` lines 591-648), returning the result and the
number of `driver.get` navigations issued.  `maxTime` is
`MAX_EXPLORATION_TIME` (180 in `config.py`); the loop breaks when
`elapsed > MAX_EXPLORATION_TIME`, skips visited URLs, returns immediately
on a meaningful result whose page score reaches 85, and otherwise folds
the result into the running best via `fold_best`. -/
def explore_links (maxTime : Nat) :
    List Visit → Nat → Option BillInfo → Nat → BillInfo × Nat
  | [], navs, best, _ => (best.getD noMeaningfulSentinel, navs)
  | v :: vs, navs, best, highest =>
    if maxTime < v.elapsed then (best.getD noMeaningfulSentinel, navs)
    else if v.alreadyVisited then explore_links maxTime vs navs best highest
    else
      let navs' := navs + 1 + v.subNavs
      if (match v.result with
          | some r => has_meaningful_billing_data r
          | none => false) && decide (85 ≤ v.pageScore) then
        ((v.result).getD noMeaningfulSentinel, navs')
      else
        let p := fold_best best highest v.result v.pageScore
        explore_links maxTime vs navs' p.1 p.2

/-- The environment of one `explore_for_billing_data` run: the
registration-redirect check, the orchestrator's result and quality score
for the entry page, the sufficiency-oracle outcome for that page, and the
per-candidate environments of the ranked links that Phase 1/2 (discovery
plus ranking) would hand to the exploration loop. -/
structure EngineEnv where
  regRedirect : Bool
  dashboardResult : BillInfo
  mainScore : Nat
  mainEval : OracleCall Evaluation
  visits : List Visit
deriving Repr

def accountSetupSentinel : BillInfo :=
  { previous_month := "Account setup required", previous_amount := 0,
    current_month := "Complete account setup", current_amount := 0 }

def noRankedSentinel : BillInfo :=
  { previous_month := "No suitable links found", previous_amount := 0,
    current_month := "No ranked links", current_amount := 0 }

/-- The outcome of one engine run: the returned history, the number of
`driver.get` navigations issued, and whether link discovery (Phase 1,
`_discover_billing_links`) was reached. -/
structure RunOut where
  result : BillInfo
  navs : Nat
  discoveryCalled : Bool
deriving DecidableEq, Repr

/-- `NavigationAgent.explore_for_billing_data`
(`agents/navigation_agent.py` lines 39-123).  Control flow: registration
redirect sentinel; early stop when the entry page scores ≥ 85 AND its
extraction is meaningful; early return of the dashboard result when the
sufficiency oracle reports sufficient data; otherwise remember the
dashboard result as fallback iff meaningful, run discovery/ranking and the
scoring loop, and prefer the loop's result when it is meaningful and
carries records.  The `billing_links`-empty branch (lines 91-98) is dead
code — `_try_common_billing_patterns` always returns the 13
`COMMON_BILLING_PATTERNS` candidates and ranking a non-empty list is
non-empty — so an empty `visits` list models the unreachable
ranked-empty branch (lines 103-110). -/
def explore_for_billing_data (env : EngineEnv) (maxTime : Nat) : RunOut :=
  if env.regRedirect then ⟨accountSetupSentinel, 0, false⟩
  else if 85 ≤ env.mainScore ∧
      has_meaningful_billing_data env.dashboardResult then
    ⟨env.dashboardResult, 0, false⟩
  else if (evaluate_page_sufficiency env.mainEval).has_sufficient_billing_data then
    ⟨env.dashboardResult, 0, false⟩
  else
    let bestDash : Option BillInfo :=
      if has_meaningful_billing_data env.dashboardResult then
        some env.dashboardResult
      else none
    if env.visits = [] then ⟨bestDash.getD noRankedSentinel, 0, true⟩
    else
      let er := explore_links maxTime env.visits 0 none 0
      let res :=
        if has_meaningful_billing_data er.1 ∧ 1 ≤ er.1.recordCount then er.1
        else bestDash.getD er.1
      ⟨res, er.2, true⟩

/-- A one-record meaningful dashboard extraction result. -/
def dashEx : BillInfo :=
  { previous_month := "No previous", previous_amount := 0,
    current_month := "Current (07/01/2024)", current_amount := 120,
    account_number := some "Historical Data",
    all_bills := some [⟨⟨2024, 7, 1⟩, 120, "bill", ""⟩] }

/-- An entry-page environment with quality score 90 and a meaningful
one-record extraction. -/
def earlyStopEnv : EngineEnv :=
  { regRedirect := false, dashboardResult := dashEx, mainScore := 90,
    mainEval := .fail, visits := [⟨1, false, none, 0, 0⟩] }

/-- C6: when the current page scores ≥ 85 and its orchestrator output is
meaningful, the engine returns that output immediately — zero navigations
and no call to link discovery; likewise inside the candidate loop, a
meaningful result on a page scoring ≥ 85 is returned at once, visiting no
further candidates. -/
theorem claim6_early_stop (env : EngineEnv) (maxTime : Nat)
    (h1 : env.regRedirect = false) (h2 : 85 ≤ env.mainScore)
    (h3 : has_meaningful_billing_data env.dashboardResult = true) :
    explore_for_billing_data env maxTime = ⟨env.dashboardResult, 0, false⟩ ∧
    (∀ (v : Visit) (vs : List Visit) (n : Nat) (b : Option BillInfo)
        (hs : Nat) (r : BillInfo),
      v.elapsed ≤ maxTime → v.alreadyVisited = false → v.result = some r →
      has_meaningful_billing_data r = true → 85 ≤ v.pageScore →
      explore_links maxTime (v :: vs) n b hs = (r, n + 1 + v.subNavs)) := by
  constructor
  · unfold explore_for_billing_data
    rw [if_neg (by simp [h1]), if_pos ⟨h2, h3⟩]
  · intro v vs n b hs r he hv hr hm hsc
    unfold explore_links
    rw [if_neg (by omega), if_neg (by simp [hv])]
    dsimp only
    rw [hr]
    simp [hm, hsc]

/-- C6 witness: the early-stop theorem on a concrete score-90 page whose
extractor returns one record. -/
theorem claim6_early_stop_witness :
    explore_for_billing_data earlyStopEnv 180 = ⟨dashEx, 0, false⟩ :=
  (claim6_early_stop earlyStopEnv 180 rfl (by decide) (by decide)).1

theorem explore_links_expired (maxTime : Nat) (v : Visit) (vs : List Visit)
    (n : Nat) (b : Option BillInfo) (hs : Nat) (h : maxTime < v.elapsed) :
    explore_links maxTime (v :: vs) n b hs =
      (b.getD noMeaningfulSentinel, n) := by
  unfold explore_links
  rw [if_pos h]

/-- C7 (counterexample): with the deadline 0 seconds in the future at
START (`maxTime = 0`, every loop clock reading strictly past it), the
engine issues no navigation — but it does NOT return an empty/sentinel
history: the entry page's own meaningful one-record extraction is
returned, because no budget check precedes the current-page handling. -/
theorem claim7_counterexample :
    explore_for_billing_data earlyStopEnv 0 = ⟨dashEx, 0, false⟩ ∧
    (∀ v ∈ earlyStopEnv.visits, 0 < v.elapsed) ∧
    has_meaningful_billing_data dashEx = true ∧
    dashEx.recordCount = 1 ∧
    dashEx ≠ noMeaningfulSentinel ∧ dashEx ≠ accountSetupSentinel ∧
    dashEx ≠ noRankedSentinel ∧ dashEx ≠ htmlNoData := by
  refine ⟨by decide, by decide, by decide, by decide, by decide, by decide,
    by decide, by decide⟩

/-- C7 (amended): the loop re-checks the budget before each candidate
visit and an expired reading stops it with no further navigation; a run
whose clock readings are all past the deadline issues zero navigations,
and returns the empty sentinel provided the entry page itself yields no
meaningful data and the sufficiency oracle does not report sufficiency
(otherwise the entry page's extraction is returned, still without
navigating). -/
theorem claim7_budget_respect (env : EngineEnv) (maxTime : Nat)
    (hexp : ∀ v ∈ env.visits, maxTime < v.elapsed) :
    (explore_for_billing_data env maxTime).navs = 0 ∧
    (∀ (v : Visit) (vs : List Visit) (n : Nat) (b : Option BillInfo)
        (hs : Nat), maxTime < v.elapsed →
      explore_links maxTime (v :: vs) n b hs =
        (b.getD noMeaningfulSentinel, n)) ∧
    (env.regRedirect = false →
      has_meaningful_billing_data env.dashboardResult = false →
      (evaluate_page_sufficiency env.mainEval).has_sufficient_billing_data =
        false →
      env.visits ≠ [] →
      (explore_for_billing_data env maxTime).result = noMeaningfulSentinel) ∧
    noMeaningfulSentinel.recordCount = 0 ∧
    noMeaningfulSentinel.current_amount = 0 ∧
    noMeaningfulSentinel.previous_amount = 0 := by
  refine ⟨?_, fun v vs n b hs h => explore_links_expired maxTime v vs n b hs h,
    ?_, rfl, rfl, rfl⟩
  · unfold explore_for_billing_data
    split
    · rfl
    · split
      · rfl
      · split
        · rfl
        · dsimp only
          split
          · rfl
          · rename_i hne
            cases hv : env.visits with
            | nil => exact absurd hv hne
            | cons v vs =>
              have hv' : v ∈ env.visits := by rw [hv]; exact List.mem_cons_self _ _
              rw [explore_links_expired maxTime v vs 0 none 0 (hexp v hv')]
  · intro hreg hmean hsuff hne
    unfold explore_for_billing_data
    rw [if_neg (by simp [hreg]), if_neg (by simp [hmean]),
      if_neg (by simp [hsuff])]
    dsimp only
    rw [if_neg hne]
    simp only [hmean, Bool.false_eq_true, if_false]
    cases hv : env.visits with
    | nil => exact absurd hv hne
    | cons v vs =>
      have hv' : v ∈ env.visits := by rw [hv]; exact List.mem_cons_self _ _
      rw [explore_links_expired maxTime v vs 0 none 0 (hexp v hv')]
      simp

/-- C7 witness: the amended budget theorem at a concrete expired-budget
run whose entry page has no data. -/
theorem claim7_budget_respect_witness :
    (explore_for_billing_data
      { regRedirect := false, dashboardResult := htmlNoData, mainScore := 10,
        mainEval := .fail, visits := [⟨1, false, none, 0, 0⟩] } 0).navs = 0 :=
  (claim7_budget_respect
    { regRedirect := false, dashboardResult := htmlNoData, mainScore := 10,
      mainEval := .fail, visits := [⟨1, false, none, 0, 0⟩] } 0
    (by decide)).1

/-- A two-record meaningful extraction result. -/
def twoRecordBill : BillInfo :=
  { previous_month := "Previous (06/15/2024)", previous_amount := 115,
    current_month := "Current (07/01/2024)", current_amount := 120,
    account_number := some "Historical Data",
    all_bills := some [⟨⟨2024, 7, 1⟩, 120, "bill", ""⟩,
                       ⟨⟨2024, 6, 15⟩, 115, "bill", ""⟩] }

/-- C8 (counterexample): the best-result fold is keyed on the page quality
score, not the record count — a meaningful zero-record candidate on a
page scoring 70 replaces a two-record best from a page scoring 60, so the
best result's record count drops from 2 to 0. -/
theorem claim8_counterexample :
    fold_best (some twoRecordBill) 60 (some oneAmountBill) 70 =
      (some oneAmountBill, 70) ∧
    twoRecordBill.recordCount = 2 ∧
    oneAmountBill.recordCount = 0 ∧
    has_meaningful_billing_data oneAmountBill = true ∧
    (explore_links 180
      [⟨1, false, some twoRecordBill, 60, 0⟩,
       ⟨2, false, some oneAmountBill, 70, 0⟩] 0 none 0).1 = oneAmountBill := by
  refine ⟨by decide, by decide, by decide, by decide, by decide⟩

/-- C8 (amended): folding a candidate into the running best is a no-op for
a missing or non-meaningful result, and for a meaningful result whose page
score does not exceed the highest score seen; a meaningful result with a
strictly higher page score always replaces the best — regardless of
record counts, which may therefore decrease
(see `claim8_counterexample`). -/
theorem claim8_fold_best_characterization (best : Option BillInfo)
    (highest : Nat) (r : Option BillInfo) (s : Nat) :
    (r = none → fold_best best highest r s = (best, highest)) ∧
    (∀ b, r = some b → has_meaningful_billing_data b = false →
      fold_best best highest r s = (best, highest)) ∧
    (∀ b, r = some b → has_meaningful_billing_data b = true → s ≤ highest →
      fold_best best highest r s = (best, highest)) ∧
    (∀ b, r = some b → has_meaningful_billing_data b = true → highest < s →
      fold_best best highest r s = (some b, s)) := by
  refine ⟨?_, ?_, ?_, ?_⟩
  · intro h
    rw [h]
    rfl
  · intro b hb hm
    rw [hb]
    unfold fold_best
    simp [hm]
  · intro b hb hm hle
    rw [hb]
    unfold fold_best
    simp only [hm, if_true]
    rw [if_neg (by omega)]
  · intro b hb hm hlt
    rw [hb]
    unfold fold_best
    simp only [hm, if_true]
    rw [if_pos hlt]

/-- C8 witness: the fold characterization applied at the concrete
counterexample inputs. -/
theorem claim8_fold_best_characterization_witness :
    fold_best (some twoRecordBill) 60 (some oneAmountBill) 70 =
      (some oneAmountBill, 70) :=
  (claim8_fold_best_characterization (some twoRecordBill) 60
    (some oneAmountBill) 70).2.2.2 oneAmountBill rfl (by decide) (by decide)

end AutoBilling
